import Mathlib

/-!
# Verification of the gzinfo container decoder (`src/gzinfo.c`)

Shallow embedding of the gzip container analysis core of `gzinfo.c`:
the stdio file cursor (`FILE` with position and end-of-file indicator),
`parse_gzip_header`, `inflate_member` (its net effect on the file cursor),
`estimate_compression_level`, and the `analyze_gzip` member loop.

Bytes are natural numbers (< 256 in every real input).  Fallible C
functions returning `-1`/`0` become `Option`-valued functions.

The bit-level DEFLATE decode is performed by the external zlib library
(linked via `-lz`, not part of this repository).  It is modelled here
exactly for stored (`BTYPE = 00`) deflate blocks (RFC 1951 §3.2.4):
`deflateDecode s` returns `some (out, n)` when a prefix of `s` of
length `n` is a complete deflate stream of stored blocks producing
output `out`, and `none` when the data is corrupt or incomplete --
the two situations in which zlib's `inflate` fails to reach
`Z_STREAM_END` and `inflate_member` returns `-1`.  This fragment is
sufficient for all container-level properties considered here; every
concrete input below uses stored blocks, on which zlib behaves exactly
as this model.
-/

/-- `CHUNK` from gzinfo.c: the input buffer size used by `inflate_member`. -/
def CHUNK : Nat := 32768

/-! ## CRC-32 (zlib `crc32`, standard reflected polynomial 0xEDB88320) -/

/-- One shift step of the reflected CRC-32 register. -/
def crc32Step (crc : Nat) : Nat :=
  if crc % 2 = 1 then Nat.xor (crc / 2) 0xEDB88320 else crc / 2

/-- Fold one byte into the CRC-32 register (8 shift steps). -/
def crc32Byte (crc b : Nat) : Nat :=
  (List.range 8).foldl (fun c _ => crc32Step c) (Nat.xor crc (b % 256))

/-- CRC-32 of a byte sequence, as computed by `crc32(0, buf, len)` in zlib:
initial register `0xFFFFFFFF`, final xor `0xFFFFFFFF`. -/
def crc32Bytes (l : List Nat) : Nat :=
  Nat.xor (l.foldl crc32Byte 0xFFFFFFFF) 0xFFFFFFFF

/-! ## The stdio file cursor -/

/-- A C `FILE` opened for reading: the underlying bytes, the read
position, and the end-of-file indicator (`feof`). -/
structure FileSt where
  data : List Nat
  pos : Nat
  eofFlag : Bool
deriving DecidableEq

/-- `fgetc`: `none` models `EOF` (and sets the end-of-file indicator). -/
def fgetc (f : FileSt) : Option Nat × FileSt :=
  if f.pos < f.data.length then
    (f.data[f.pos]?, { f with pos := f.pos + 1 })
  else
    (none, { f with eofFlag := true })

/-- `fgetc` truncated to `uint8_t`, as in `uint8_t id1 = fgetc(fp)`:
`EOF` (-1) becomes 255. -/
def fgetcB (f : FileSt) : Nat × FileSt :=
  let r := fgetc f
  (r.fst.getD 255, r.snd)

/-- `fread(buf, 1, want, fp)`: delivers up to `want` bytes; a short read
(at end of data) sets the end-of-file indicator. -/
def freadBytes (f : FileSt) (want : Nat) : List Nat × FileSt :=
  let avail := f.data.length - min f.pos f.data.length
  let got := min want avail
  ((f.data.drop f.pos).take got,
   { f with pos := f.pos + got, eofFlag := f.eofFlag || decide (got < want) })

/-- `fseek(fp, off, SEEK_CUR)` with `off ≥ 0`: moves the position and
clears the end-of-file indicator (C11 7.21.9.2). -/
def fseekCur (f : FileSt) (off : Nat) : FileSt :=
  { f with pos := f.pos + off, eofFlag := false }

/-- `read_le16` from gzinfo.c: returns 0 on a short read (the partial
bytes are still consumed). -/
def read_le16 (f : FileSt) : Nat × FileSt :=
  let r := freadBytes f 2
  match r.fst with
  | [a, b] => (a + 256 * b, r.snd)
  | _ => (0, r.snd)

/-- `read_le32` from gzinfo.c: returns 0 on a short read. -/
def read_le32 (f : FileSt) : Nat × FileSt :=
  let r := freadBytes f 4
  match r.fst with
  | [a, b, c, d] => (a + 256 * b + 65536 * c + 16777216 * d, r.snd)
  | _ => (0, r.snd)

/-- `read_cstring` from gzinfo.c: bytes up to (and consuming) a NUL
terminator, stopping early at `EOF`.  `fuel` is an upper bound on the
number of reads; callers pass `f.data.length + 1`, which can never be
exhausted since every recursive step consumes one byte of data. -/
def read_cstring : Nat → FileSt → List Nat × FileSt
  | 0, f => ([], f)
  | fuel + 1, f =>
    match fgetc f with
    | (none, f1) => ([], f1)
    | (some 0, f1) => ([], f1)
    | (some c, f1) =>
      let r := read_cstring fuel f1
      (c :: r.fst, r.snd)

/-! ## Header parsing -/

/-- The header fields `parse_gzip_header` stores into `gzip_member_info`.
`filename`/`comment` are `NULL` (here `none`) unless their flag bit is set. -/
structure GzHeader where
  method : Nat
  flags : Nat
  mtime : Nat
  xflags : Nat
  os : Nat
  filename : Option (List Nat)
  comment : Option (List Nat)
deriving DecidableEq

/-- The body of `parse_gzip_header` after a successful magic check:
reads method, flags, mtime, xflags, os, then the optional fields in the
order FEXTRA, FNAME, FCOMMENT, FHCRC, driven by the flag bits.  The
method byte is stored but not checked. -/
def parse_gzip_fields (f : FileSt) : Option GzHeader × FileSt :=
    let rm := fgetcB f
    let rf := fgetcB rm.snd
    let rt := read_le32 rf.snd
    let rx := fgetcB rt.snd
    let ro := fgetcB rx.snd
    let f0 := ro.snd
    let f1 := if rf.fst.testBit 2 then
                let rl := read_le16 f0
                fseekCur rl.snd rl.fst
              else f0
    let rn : Option (List Nat) × FileSt :=
      if rf.fst.testBit 3 then
        let rs := read_cstring (f1.data.length + 1) f1
        (some rs.fst, rs.snd)
      else (none, f1)
    let rc : Option (List Nat) × FileSt :=
      if rf.fst.testBit 4 then
        let rs := read_cstring (rn.snd.data.length + 1) rn.snd
        (some rs.fst, rs.snd)
      else (none, rn.snd)
    let f2 := if rf.fst.testBit 1 then (read_le16 rc.snd).snd else rc.snd
    (some ⟨rm.fst, rf.fst, rt.fst, rx.fst, ro.fst, rn.fst, rc.fst⟩, f2)

/-- `parse_gzip_header` from gzinfo.c.  Returns `none` (C: `-1`) exactly
when the 2-byte magic is not `1f 8b`. -/
def parse_gzip_header (f : FileSt) : Option GzHeader × FileSt :=
  let r1 := fgetcB f
  let r2 := fgetcB r1.snd
  if r1.fst ≠ 31 ∨ r2.fst ≠ 139 then (none, r2.snd)
  else parse_gzip_fields r2.snd

/-! ## The DEFLATE decoder (zlib `inflate` with windowBits -15),
modelled for stored blocks -/

/-- Worker for `deflateDecode`.  Arguments: fuel, remaining input,
output accumulated so far, bytes consumed so far.  A stored block is
`BFINAL BTYPE=00` in the low bits of the first byte (the remaining bits
of that byte are discarded), then `LEN` and `NLEN = ~LEN` little-endian,
then `LEN` raw bytes. -/
def deflGo : Nat → List Nat → List Nat → Nat → Option (List Nat × Nat)
  | 0, _, _, _ => none
  | fuel + 1, s, acc, c =>
    match s with
    | b :: l0 :: l1 :: n0 :: n1 :: r2 =>
      if (b / 2) % 4 = 0 then
        if l0 + n0 = 255 ∧ l1 + n1 = 255 then
          if l0 + 256 * l1 ≤ r2.length then
            if b % 2 = 1 then
              some (acc ++ r2.take (l0 + 256 * l1), c + 5 + (l0 + 256 * l1))
            else
              deflGo fuel (r2.drop (l0 + 256 * l1))
                (acc ++ r2.take (l0 + 256 * l1)) (c + 5 + (l0 + 256 * l1))
          else none
        else none
      else none
    | _ => none

/-- Net result of running zlib's raw `inflate` to `Z_STREAM_END` over a
byte sequence: `some (out, n)` when the prefix of length `n` is a
complete deflate stream (of stored blocks) with output `out`; `none`
when zlib would fail to reach `Z_STREAM_END` (corrupt or incomplete
data, `Z_DATA_ERROR`/`Z_BUF_ERROR`). -/
def deflateDecode (s : List Nat) : Option (List Nat × Nat) :=
  deflGo (s.length + 1) s [] 0

/-! ## inflate_member -/

/-- The values `inflate_member` computes on success: the fields it
stores into the member record plus its net effect on the file cursor
(`advanced` = how far the file position moved; `eofHit` = whether any
of its `fread` calls set the end-of-file indicator). -/
structure InflRes where
  usize : Nat
  storedCrc : Nat
  crcOk : Bool
  advanced : Nat
  eofHit : Bool
deriving DecidableEq

/-- Little-endian 32-bit value from the first four bytes of a list
(as assembled from `trailer[0..3]` and `trailer[4..7]` in gzinfo.c). -/
def le32 (l : List Nat) : Nat :=
  match l with
  | a :: b :: c :: d :: _ => a + 256 * b + 65536 * c + 16777216 * d
  | _ => 0

/-- The `m->crc_ok` computation of `inflate_member`: stored CRC equals
the recomputed CRC **and** ISIZE equals the output length modulo 2^32
(`isize == (out_total & 0xffffffff)`), combined into the single flag. -/
def trailerCrcOk (rem out : List Nat) (n : Nat) : Bool :=
  decide (le32 (rem.drop n) = crc32Bytes out) &&
  decide (le32 (rem.drop (n + 4)) = out.length % 4294967296)

/-- Completion of `inflate_member` once the stream has decoded: the
trailer handling of gzinfo.c, given the bytes `rem` that remained in
the file at entry to `inflate_member`.  The C loop `fread`s `CHUNK`
bytes at a time and feeds them to `inflate`; when the stream ends after
consuming `n` bytes it has read `min (k * CHUNK) rem.length` bytes from
the file, where `k` is the number of chunks needed to cover `n`.  The
8-byte trailer is then taken from the still-buffered bytes, topped up
with a direct `fread` if fewer than 8 remain buffered.  The buffered
bytes are **never returned to the file**: the file position stays at
the end of the last chunk read (or at trailer end, in the top-up case). -/
def inflFinish (rem out : List Nat) (n : Nat) : Option InflRes :=
  if 8 ≤ min ((n + (CHUNK - 1)) / CHUNK * CHUNK) rem.length - n then
    some ⟨out.length, le32 (rem.drop n), trailerCrcOk rem out n,
          min ((n + (CHUNK - 1)) / CHUNK * CHUNK) rem.length,
          decide (rem.length < (n + (CHUNK - 1)) / CHUNK * CHUNK)⟩
  else if n + 8 ≤ rem.length then
    some ⟨out.length, le32 (rem.drop n), trailerCrcOk rem out n,
          n + 8, decide (rem.length < (n + (CHUNK - 1)) / CHUNK * CHUNK)⟩
  else none

/-- `inflate_member` from gzinfo.c, as its net effect on the bytes
`rem` that remain in the file at entry: it fails (C: `-1`) when the
stream is corrupt or incomplete, and otherwise finishes via
`inflFinish` above. -/
def inflate_member (rem : List Nat) : Option InflRes :=
  match deflateDecode rem with
  | none => none
  | some (out, n) => inflFinish rem out n

/-! ## Heuristic analysis -/

/-- The per-member record `gzip_member_info` (analysis fields included). -/
structure MemberInfo where
  compressed_size : Nat
  uncompressed_size : Nat
  crc32 : Nat
  crc_ok : Bool
  method : Nat
  flags : Nat
  mtime : Nat
  xflags : Nat
  os : Nat
  filename : Option (List Nat)
  comment : Option (List Nat)
  ratioVal : ℚ
  estimated_level_min : Nat
  estimated_level_max : Nat
deriving DecidableEq

/-- `estimate_compression_level` from gzinfo.c.  Returns early (leaving
the zero-initialised analysis fields untouched) when `compressed_size`
is 0; otherwise stores `uncompressed_size / compressed_size` and maps
it to a level range by the thresholds 1.1, 1.5, 2.5.  The C double
comparisons `ratio < 1.1` etc. are modelled as exact rational
comparisons, written in the equivalent integer form
(`u / c < 11/10 ↔ 10 * u < 11 * c` for `c > 0`) so that they are
kernel-evaluable. -/
def estimate_compression_level (m : MemberInfo) : MemberInfo :=
  if m.compressed_size = 0 then m
  else
    let r : ℚ := (m.uncompressed_size : ℚ) / (m.compressed_size : ℚ)
    if 10 * m.uncompressed_size < 11 * m.compressed_size then
      { m with ratioVal := r, estimated_level_min := 0, estimated_level_max := 1 }
    else if 2 * m.uncompressed_size < 3 * m.compressed_size then
      { m with ratioVal := r, estimated_level_min := 1, estimated_level_max := 3 }
    else if 2 * m.uncompressed_size < 5 * m.compressed_size then
      { m with ratioVal := r, estimated_level_min := 4, estimated_level_max := 6 }
    else
      { m with ratioVal := r, estimated_level_min := 7, estimated_level_max := 9 }

/-! ## analyze_gzip -/

/-- Assembles the `gzip_member_info` record exactly as the loop body of
`analyze_gzip` does: zero-initialised record, header fields from the
parser, sizes/CRC from `inflate_member`,
`compressed_size = ftell-after - ftell-after-header = r.advanced`,
then `estimate_compression_level`. -/
def mkMember (hdr : GzHeader) (r : InflRes) : MemberInfo :=
  estimate_compression_level
    { compressed_size := r.advanced
      uncompressed_size := r.usize
      crc32 := r.storedCrc
      crc_ok := r.crcOk
      method := hdr.method
      flags := hdr.flags
      mtime := hdr.mtime
      xflags := hdr.xflags
      os := hdr.os
      filename := hdr.filename
      comment := hdr.comment
      ratioVal := 0
      estimated_level_min := 0
      estimated_level_max := 0 }

/-- The `while (!feof(fp))` loop of `analyze_gzip`.  A header-parse
failure ends the loop quietly; an `inflate_member` failure sets
`truncated` and ends the loop; a decoded member is appended and the
loop continues.  `fuel` bounds the iterations; `analyzeData` passes
`data.length + 1`, which cannot be exhausted since every continuing
iteration advances the position by at least 13 bytes. -/
def memberLoop : Nat → FileSt → List MemberInfo → List MemberInfo × Bool
  | 0, _, acc => (acc, false)
  | fuel + 1, f, acc =>
    if f.eofFlag then (acc, false)
    else
      match parse_gzip_header f with
      | (none, _) => (acc, false)
      | (some hdr, f1) =>
        match inflate_member (f1.data.drop f1.pos) with
        | none => (acc, true)
        | some r =>
          memberLoop fuel
            { data := f1.data, pos := f1.pos + r.advanced,
              eofFlag := f1.eofFlag || r.eofHit }
            (acc ++ [mkMember hdr r])

/-- The `gzip_archive_info` report. -/
structure ArchiveInfo where
  members : List MemberInfo
  valid : Bool
  truncated : Bool
deriving DecidableEq

/-- `analyze_gzip` on a successfully opened file holding `data`:
runs the member loop from position 0, then sets
`valid = (member_count > 0 && !truncated)`. -/
def analyzeData (data : List Nat) : ArchiveInfo :=
  let r := memberLoop (data.length + 1) ⟨data, 0, false⟩ []
  { members := r.fst, truncated := r.snd,
    valid := decide (0 < r.fst.length) && !r.snd }

/-- `analyze_gzip` including the `fopen` step: `none` models a file
that cannot be opened (C returns `-1` and leaves `*info` untouched);
otherwise the function always returns `0` with the report. -/
def analyze_gzip (file : Option (List Nat)) : Int × Option ArchiveInfo :=
  match file with
  | none => (-1, none)
  | some d => (0, some (analyzeData d))

/-! ## Helper lemmas -/

/-- Every successful `deflGo` run consumes at least 5 more bytes than it
had already consumed, and never more than the available input. -/
theorem deflGo_bounds : ∀ (fuel : Nat) (s acc : List Nat) (c : Nat)
    (out : List Nat) (n : Nat),
    deflGo fuel s acc c = some (out, n) → c + 5 ≤ n ∧ n ≤ c + s.length := by
  intro fuel
  induction fuel with
  | zero => intro s acc c out n h; simp [deflGo] at h
  | succ fuel ih =>
    intro s acc c out n h
    cases s with
    | nil => simp [deflGo] at h
    | cons b t1 =>
      cases t1 with
      | nil => simp [deflGo] at h
      | cons l0 t2 =>
        cases t2 with
        | nil => simp [deflGo] at h
        | cons l1 t3 =>
          cases t3 with
          | nil => simp [deflGo] at h
          | cons n0 t4 =>
            cases t4 with
            | nil => simp [deflGo] at h
            | cons n1 r2 =>
              simp only [deflGo] at h
              split at h
              · split at h
                · split at h
                  · rename_i hlen
                    split at h
                    · obtain ⟨h1, h2⟩ := Prod.mk.injEq .. ▸ Option.some.inj h
                      simp only [List.length_cons]
                      omega
                    · have hrec := ih _ _ _ _ _ h
                      rw [List.length_drop] at hrec
                      simp only [List.length_cons]
                      omega
                  · exact absurd h (by simp)
                · exact absurd h (by simp)
              · exact absurd h (by simp)

/-- A complete decode consumes between 5 bytes and the whole input. -/
theorem deflateDecode_bounds {s out : List Nat} {n : Nat}
    (h : deflateDecode s = some (out, n)) : 5 ≤ n ∧ n ≤ s.length := by
  have := deflGo_bounds (s.length + 1) s [] 0 out n h
  omega

/-- If no prefix decodes completely, `inflate_member` fails
(zlib never reaches `Z_STREAM_END`). -/
theorem inflate_member_decode_none {rem : List Nat}
    (h : deflateDecode rem = none) : inflate_member rem = none := by
  unfold inflate_member
  rw [h]

/-- Normal form of a successful `inflate_member` whose member fits in a
single input chunk and whose stream is followed by exactly the 8 trailer
bytes: everything up to the trailer end is consumed, and the end-of-file
indicator is set iff fewer than `CHUNK` bytes were available. -/
theorem inflate_member_one_chunk {rem out : List Nat} {n : Nat}
    (hd : deflateDecode rem = some (out, n))
    (hlen : rem.length = n + 8) (hch : rem.length ≤ CHUNK) :
    inflate_member rem = some ⟨out.length, le32 (rem.drop n),
      trailerCrcOk rem out n, n + 8, decide (rem.length < CHUNK)⟩ := by
  obtain ⟨hn5, hnle⟩ := deflateDecode_bounds hd
  have hstep : inflate_member rem = inflFinish rem out n := by
    unfold inflate_member
    rw [hd]
  rw [hstep]
  unfold inflFinish
  have hk : (n + (CHUNK - 1)) / CHUNK = 1 := by
    simp only [CHUNK] at *
    omega
  rw [hk, one_mul]
  have hmin : min CHUNK rem.length = rem.length := by
    simp only [CHUNK] at *
    omega
  rw [hmin]
  have h8 : 8 ≤ rem.length - n := by omega
  rw [if_pos h8, hlen]

/-- When the remaining input holds a complete stream but fewer than 8
further bytes (a trailer cut short), `inflate_member` fails: the final
`fread` for the trailer comes up short and the function returns `-1`. -/
theorem inflate_member_trailer_short {rem out : List Nat} {n : Nat}
    (hd : deflateDecode rem = some (out, n))
    (hlen : rem.length < n + 8) (hch : rem.length ≤ CHUNK) :
    inflate_member rem = none := by
  obtain ⟨hn5, hnle⟩ := deflateDecode_bounds hd
  have hstep : inflate_member rem = inflFinish rem out n := by
    unfold inflate_member
    rw [hd]
  rw [hstep]
  unfold inflFinish
  have hk : (n + (CHUNK - 1)) / CHUNK = 1 := by
    simp only [CHUNK] at *
    omega
  rw [hk, one_mul]
  have hmin : min CHUNK rem.length = rem.length := by
    simp only [CHUNK] at *
    omega
  rw [hmin]
  have h8 : ¬ (8 ≤ rem.length - n) := by omega
  rw [if_neg h8]
  have h9 : ¬ (n + 8 ≤ rem.length) := by omega
  rw [if_neg h9]

/-- `parse_gzip_header` at or beyond end of data fails: both magic reads
return `EOF` (truncated to 255), which is not `1f 8b`. -/
theorem parse_gzip_header_at_end {d : List Nat} {p : Nat}
    (h : d.length ≤ p) :
    (parse_gzip_header ⟨d, p, false⟩).fst = none := by
  have h1 : ¬ (p < d.length) := by omega
  simp [parse_gzip_header,
        show fgetcB ⟨d, p, false⟩ = (255, ⟨d, p, true⟩) from by
          simp [fgetcB, fgetc, h1],
        show fgetcB ⟨d, p, true⟩ = (255, ⟨d, p, true⟩) from by
          simp [fgetcB, fgetc, h1]]

/-- The member loop stops quietly when the end-of-file indicator is set. -/
theorem memberLoop_eof (fuel : Nat) (f : FileSt) (acc : List MemberInfo)
    (h : f.eofFlag = true) : memberLoop (fuel + 1) f acc = (acc, false) := by
  simp [memberLoop, h]

/-- The member loop stops quietly (without touching `truncated`) when
header parsing fails. -/
theorem memberLoop_parse_fail (fuel : Nat) (f : FileSt) (acc : List MemberInfo)
    (hEof : f.eofFlag = false) (hp : (parse_gzip_header f).fst = none) :
    memberLoop (fuel + 1) f acc = (acc, false) := by
  rcases hq : parse_gzip_header f with ⟨o, f2⟩
  rw [hq] at hp
  simp only at hp
  subst hp
  simp [memberLoop, hEof, hq]

/-- The member loop records a truncation and stops when
`inflate_member` fails after a successful header parse. -/
theorem memberLoop_inflate_fail (fuel : Nat) (f f1 : FileSt)
    (acc : List MemberInfo) (hdr : GzHeader)
    (hEof : f.eofFlag = false)
    (hp : parse_gzip_header f = (some hdr, f1))
    (hi : inflate_member (f1.data.drop f1.pos) = none) :
    memberLoop (fuel + 1) f acc = (acc, true) := by
  simp [memberLoop, hEof, hp, hi]

/-- One successful iteration of the member loop: the record is appended
and the loop continues from the advanced cursor. -/
theorem memberLoop_success (fuel : Nat) (f f1 : FileSt)
    (acc : List MemberInfo) (hdr : GzHeader) (r : InflRes)
    (hEof : f.eofFlag = false)
    (hp : parse_gzip_header f = (some hdr, f1))
    (hi : inflate_member (f1.data.drop f1.pos) = some r) :
    memberLoop (fuel + 1) f acc =
      memberLoop fuel
        ⟨f1.data, f1.pos + r.advanced, f1.eofFlag || r.eofHit⟩
        (acc ++ [mkMember hdr r]) := by
  simp [memberLoop, hEof, hp, hi]

/-- `estimate_compression_level` never touches `crc_ok`. -/
theorem estimate_preserves_crc_ok (m : MemberInfo) :
    (estimate_compression_level m).crc_ok = m.crc_ok := by
  unfold estimate_compression_level
  split <;> try rfl
  split <;> try rfl
  split <;> try rfl
  split <;> rfl

/-- `mkMember` never changes `crc_ok`: it comes straight from
`inflate_member`. -/
theorem mkMember_crc_ok (hdr : GzHeader) (r : InflRes) :
    (mkMember hdr r).crc_ok = r.crcOk := by
  unfold mkMember
  rw [estimate_preserves_crc_ok]

/-- A single-member archive — header parsing succeeds consuming `hl`
bytes without hitting end-of-input, the payload decodes within one
input chunk, and exactly the 8 trailer bytes close the file — produces
exactly one member record (built from the decode results and the
trailer comparison) and a report with `truncated = false`,
`valid = true`. -/
theorem analyzeData_single_member
    (data out : List Nat) (n hl : Nat) (hdr : GzHeader)
    (hp : parse_gzip_header ⟨data, 0, false⟩ = (some hdr, ⟨data, hl, false⟩))
    (hd : deflateDecode (data.drop hl) = some (out, n))
    (hlen : data.length = hl + n + 8)
    (hch : data.length ≤ CHUNK) :
    (analyzeData data).members
        = [mkMember hdr ⟨out.length, le32 ((data.drop hl).drop n),
            trailerCrcOk (data.drop hl) out n, n + 8,
            decide (n + 8 < CHUNK)⟩] ∧
    (analyzeData data).truncated = false ∧
    (analyzeData data).valid = true := by
  obtain ⟨hn5, hnle⟩ := deflateDecode_bounds hd
  have hrem : (data.drop hl).length = n + 8 := by
    rw [List.length_drop]; omega
  have hremch : (data.drop hl).length ≤ CHUNK := by
    rw [List.length_drop]; omega
  have hinf := inflate_member_one_chunk hd hrem hremch
  unfold analyzeData
  rw [memberLoop_success data.length ⟨data, 0, false⟩ ⟨data, hl, false⟩ []
        hdr _ rfl hp hinf]
  have hpos : hl + (n + 8) = data.length := by omega
  simp only [hpos, Bool.false_or, List.nil_append, hrem]
  have hfuel : data.length = (data.length - 1) + 1 := by omega
  by_cases hcase : n + 8 < CHUNK
  · rw [hfuel, memberLoop_eof _ _ _ (by simp [hcase])]
    exact ⟨rfl, rfl, rfl⟩
  · have hdec : decide (n + 8 < CHUNK) = false := by simp [hcase]
    have hpend : (parse_gzip_header ⟨data, data.length - 1 + 1, false⟩).fst
        = none := parse_gzip_header_at_end (by omega)
    rw [hfuel, hdec, memberLoop_parse_fail _ _ _ rfl hpend]
    exact ⟨rfl, rfl, rfl⟩

/-! ## Concrete inputs -/

/-- A minimal valid single-member gzip file (23 bytes): 10-byte header
(`1f 8b`, method 8, flags 0, mtime 0, xflags 0, os 3), a final stored
deflate block with `LEN = 0` (5 bytes: `01 00 00 ff ff`), and the
8-byte trailer (CRC-32 of the empty sequence = 0, ISIZE = 0). -/
def gzEmptyMember : List Nat :=
  [0x1f, 0x8b, 8, 0, 0, 0, 0, 0, 0, 3, 1, 0, 0, 0xff, 0xff,
   0, 0, 0, 0, 0, 0, 0, 0]

/-- A 46-byte gzip archive: two independently valid members
(two copies of `gzEmptyMember`) concatenated. -/
def gzTwoMembers : List Nat := gzEmptyMember ++ gzEmptyMember

/-- `gzEmptyMember` with its stored trailer CRC-32 changed from 0 to 1:
structurally intact, but the stored CRC does not match the recomputed
CRC of the (empty) output. -/
def gzBadCrc : List Nat :=
  [0x1f, 0x8b, 8, 0, 0, 0, 0, 0, 0, 3, 1, 0, 0, 0xff, 0xff,
   1, 0, 0, 0, 0, 0, 0, 0]

/-- A complete 10-byte gzip header whose compression-method byte is 9
(not 8 = DEFLATE). -/
def gzHeaderMethod9 : List Nat := [0x1f, 0x8b, 9, 0, 0, 0, 0, 0, 0, 3]

/-- The zero-initialised `gzip_member_info` (`gzip_member_info m = {0}`). -/
def zeroMember : MemberInfo :=
  ⟨0, 0, 0, false, 0, 0, 0, 0, 0, none, none, 0, 0, 0⟩

/-- A zero-initialised member record with `uncompressed_size = 3` and
`compressed_size = 2` (ratio 1.5, bucket {4,6}). -/
def ratioMember : MemberInfo :=
  ⟨2, 3, 0, false, 0, 0, 0, 0, 0, none, none, 0, 0, 0⟩

/-! ## Claims -/

/-- C1: the claim says a concatenation of N independently valid gzip
members yields exactly N member records.  The code does not: the chunked
reads of `inflate_member` consume the bytes of the following member into
its buffer and never reposition the file, so on this two-member archive
`analyze_gzip` produces exactly one member record (with `valid = true`),
not two. -/
theorem c1_two_members_one_record :
    (analyzeData gzTwoMembers).members.length = 1 ∧
    (analyzeData gzTwoMembers).valid = true := by decide

/-- C2: the claim says `compressed_size` equals exactly the container
bytes between header end and trailer start.  On the minimal single-member
file the deflate payload is 5 bytes (`deflateDecode` consumes 5), but the
recorded `compressed_size` is 13 = payload + the 8-byte trailer, because
`analyze_gzip` measures `ftell` after `inflate_member`'s buffered reads,
which include the trailer (and, in general, any over-read bytes). -/
theorem c2_compressed_size_not_exact :
    deflateDecode (gzEmptyMember.drop 10) = some ([], 5) ∧
    (analyzeData gzEmptyMember).members.map MemberInfo.compressed_size
      = [13] := by decide

/-- C3 (counterexample): on a single-member archive whose stored CRC-32
(1) differs from the recomputed CRC-32 of the output (0), decoding runs
to completion and records `crc_ok = false` — but the archive-level
`valid` flag is `true`, not `false` as the claim states: `analyze_gzip`
computes `valid` from `member_count` and `truncated` only. -/
theorem c3_counterexample :
    (analyzeData gzBadCrc).members.map MemberInfo.crc_ok = [false] ∧
    (analyzeData gzBadCrc).truncated = false ∧
    (analyzeData gzBadCrc).valid = true := by decide

/-- C3 (amended): for every single-member archive (fitting one input
chunk) that decodes structurally but whose stored CRC-32 or ISIZE does
not match the recomputed values, decoding still runs to completion and
the mismatch is recorded in the member's `crc_ok` flag — but the
archive-level `valid` flag is unaffected by the mismatch: it remains
`true` (one member decoded, no truncation). -/
theorem c3_mismatch_recorded_not_fatal
    (data out : List Nat) (n hl : Nat) (hdr : GzHeader)
    (hp : parse_gzip_header ⟨data, 0, false⟩ = (some hdr, ⟨data, hl, false⟩))
    (hd : deflateDecode (data.drop hl) = some (out, n))
    (hlen : data.length = hl + n + 8)
    (hch : data.length ≤ CHUNK)
    (hbad : trailerCrcOk (data.drop hl) out n = false) :
    ∃ m, (analyzeData data).members = [m] ∧ m.crc_ok = false ∧
      (analyzeData data).truncated = false ∧
      (analyzeData data).valid = true := by
  obtain ⟨hm, ht, hv⟩ := analyzeData_single_member data out n hl hdr hp hd hlen hch
  refine ⟨_, hm, ?_, ht, hv⟩
  rw [mkMember_crc_ok]
  exact hbad

/-- C3 (witness): the amended theorem applied to the concrete bad-CRC
single-member archive. -/
theorem c3_witness :
    ∃ m, (analyzeData gzBadCrc).members = [m] ∧ m.crc_ok = false ∧
      (analyzeData gzBadCrc).truncated = false ∧
      (analyzeData gzBadCrc).valid = true :=
  c3_mismatch_recorded_not_fatal gzBadCrc [] 5 10 ⟨8, 0, 0, 0, 3, none, none⟩
    (by decide) (by decide) (by decide) (by decide) (by decide)

/-- C4: for every input, the report's `valid` flag holds iff at least
one member was decoded and no truncation occurred — exactly the
assignment `info->valid = (info->member_count > 0 && !info->truncated)`
in `analyze_gzip`. -/
theorem c4_valid_iff (data : List Nat) :
    (analyzeData data).valid = true ↔
      0 < (analyzeData data).members.length ∧
      (analyzeData data).truncated = false := by
  unfold analyzeData
  simp [Bool.and_eq_true, decide_eq_true_iff, Bool.not_eq_true']

/-- C5: the claim says a header with correct magic but method ≠ 8 is
rejected with `UnsupportedMethod`.  The code never examines the method
byte: on a complete header with method byte 9, `parse_gzip_header`
succeeds and stores method 9. -/
theorem c5_method_not_checked :
    (parse_gzip_header ⟨gzHeaderMethod9, 0, false⟩).fst
      = some ⟨9, 0, 0, 0, 3, none, none⟩ := by decide

/-- C6 (counterexample): the input consisting of the single byte `0x1f`
ends mid-header (after one available header byte), yet the decode does
not mark the archive truncated: `parse_gzip_header` fails its magic
check (the second byte reads as EOF = 255) and the member loop breaks
without setting `truncated`. -/
theorem c6_counterexample :
    (analyzeData [0x1f]).truncated = false ∧
    (analyzeData [0x1f]).members = [] := by decide

/-- C6 (amended): end-of-input *within the 2-byte magic* stops the
member loop quietly with `truncated = false`, indistinguishable from
clean end-of-input; only when the magic parses (so header parsing
returns success even if fields ran past end-of-input) and the remaining
bytes hold no complete deflate stream does the decode set
`truncated = true` (and `valid = false`) — via the inflate failure, not
a distinct `TruncatedHeader` error. -/
theorem c6_truncation_after_magic
    (data : List Nat) (hdr : GzHeader) (hl : Nat) (e : Bool)
    (hp : parse_gzip_header ⟨data, 0, false⟩ = (some hdr, ⟨data, hl, e⟩))
    (hd : deflateDecode (data.drop hl) = none) :
    (analyzeData data).truncated = true ∧
    (analyzeData data).valid = false := by
  have hinf := inflate_member_decode_none hd
  unfold analyzeData
  rw [memberLoop_inflate_fail data.length ⟨data, 0, false⟩ ⟨data, hl, e⟩ []
        hdr rfl hp hinf]
  simp

/-- C6 (witness): the amended theorem applied to the two-byte input
`1f 8b` (ends right after a valid magic). -/
theorem c6_witness :
    (analyzeData [0x1f, 0x8b]).truncated = true ∧
    (analyzeData [0x1f, 0x8b]).valid = false :=
  c6_truncation_after_magic [0x1f, 0x8b] ⟨255, 255, 0, 255, 255, some [], some []⟩
    2 true (by decide) (by decide)

/-- `gzEmptyMember` with payload byte 10 (the first byte of the deflate
payload, the stored-block header byte) flipped from `0x01` to `0x81`.
RFC 1951 discards the bits of that byte beyond `BFINAL`/`BTYPE`, so the
modified stream decodes to exactly the same output. -/
def gzPadFlip : List Nat :=
  [0x1f, 0x8b, 8, 0, 0, 0, 0, 0, 0, 3, 0x81, 0, 0, 0xff, 0xff,
   0, 0, 0, 0, 0, 0, 0, 0]

/-- C7 (counterexample): the claim says flipping any single byte inside
the compressed payload of a valid member either aborts the stream or
yields `crc_ok = false`.  Flipping byte 10 of `gzEmptyMember` (inside
the 5-byte payload at offsets 10–14; header is 0–9, trailer 15–22)
from `0x01` to `0x81` touches only bits DEFLATE discards: the modified
archive decodes with no truncation and reports `crc_ok = true`. -/
theorem c7_counterexample :
    gzPadFlip = gzEmptyMember.set 10 0x81 ∧
    gzPadFlip ≠ gzEmptyMember ∧
    (analyzeData gzEmptyMember).valid = true ∧
    (analyzeData gzPadFlip).members.map MemberInfo.crc_ok = [true] ∧
    (analyzeData gzPadFlip).truncated = false := by decide

/-- C7 (amended): a payload byte flip either aborts decoding, or yields
a member record whose `crc_ok` is exactly the comparison of the stored
trailer against the CRC-32/ISIZE recomputed from the actually decoded
output — so the flag is never `true` without the recomputed check
passing, but it can remain `true` when the flip leaves the decoded
output unchanged (bits the DEFLATE format discards).  Stated for any
single-member archive that still decodes within one chunk. -/
theorem c7_crc_flag_faithful
    (data out : List Nat) (n hl : Nat) (hdr : GzHeader)
    (hp : parse_gzip_header ⟨data, 0, false⟩ = (some hdr, ⟨data, hl, false⟩))
    (hd : deflateDecode (data.drop hl) = some (out, n))
    (hlen : data.length = hl + n + 8)
    (hch : data.length ≤ CHUNK) :
    ∃ m, (analyzeData data).members = [m] ∧
      m.crc_ok = trailerCrcOk (data.drop hl) out n ∧
      (analyzeData data).truncated = false := by
  obtain ⟨hm, ht, _⟩ := analyzeData_single_member data out n hl hdr hp hd hlen hch
  exact ⟨_, hm, by rw [mkMember_crc_ok], ht⟩

/-- C7 (witness): the amended theorem applied to the pad-bit-flipped
archive. -/
theorem c7_witness :
    ∃ m, (analyzeData gzPadFlip).members = [m] ∧
      m.crc_ok = trailerCrcOk (gzPadFlip.drop 10) [] 5 ∧
      (analyzeData gzPadFlip).truncated = false :=
  c7_crc_flag_faithful gzPadFlip [] 5 10 ⟨8, 0, 0, 0, 3, none, none⟩
    (by decide) (by decide) (by decide) (by decide)

/-- C8: removing the final byte of a valid single-member gzip file
(fitting one input chunk) leaves the payload decodable but the trailer
one byte short; the final `fread` for the trailer comes up short,
`inflate_member` fails, and the report has `truncated = true`,
`valid = false` and an empty member list.  (The hypotheses on the
truncated file follow from those on the original, since header parsing
and payload decoding never look at the removed trailer byte.) -/
theorem c8_truncated_by_one_byte
    (data out : List Nat) (n hl : Nat) (hdr hdr2 : GzHeader)
    (_hp1 : parse_gzip_header ⟨data, 0, false⟩ = (some hdr, ⟨data, hl, false⟩))
    (_hd1 : deflateDecode (data.drop hl) = some (out, n))
    (hlen : data.length = hl + n + 8)
    (hch : data.length ≤ CHUNK)
    (_hcrc : trailerCrcOk (data.drop hl) out n = true)
    (hp2 : parse_gzip_header ⟨data.dropLast, 0, false⟩
             = (some hdr2, ⟨data.dropLast, hl, false⟩))
    (hd2 : deflateDecode (data.dropLast.drop hl) = some (out, n)) :
    (analyzeData data.dropLast).truncated = true ∧
    (analyzeData data.dropLast).valid = false ∧
    (analyzeData data.dropLast).members = [] := by
  have hlen2 : data.dropLast.length = hl + n + 7 := by
    rw [List.length_dropLast]; omega
  have hrem : (data.dropLast.drop hl).length < n + 8 := by
    rw [List.length_drop]; omega
  have hremch : (data.dropLast.drop hl).length ≤ CHUNK := by
    rw [List.length_drop]
    rw [List.length_dropLast]
    omega
  have hinf := inflate_member_trailer_short hd2 hrem hremch
  unfold analyzeData
  rw [memberLoop_inflate_fail data.dropLast.length ⟨data.dropLast, 0, false⟩
        ⟨data.dropLast, hl, false⟩ [] hdr2 rfl hp2 hinf]
  simp

/-- C8 (witness): the theorem applied to the minimal valid single-member
file with its last byte removed. -/
theorem c8_witness :
    (analyzeData gzEmptyMember.dropLast).truncated = true ∧
    (analyzeData gzEmptyMember.dropLast).valid = false ∧
    (analyzeData gzEmptyMember.dropLast).members = [] :=
  c8_truncated_by_one_byte gzEmptyMember [] 5 10
    ⟨8, 0, 0, 0, 3, none, none⟩ ⟨8, 0, 0, 0, 3, none, none⟩
    (by decide) (by decide) (by decide) (by decide) (by decide)
    (by decide) (by decide)

/-- C9 (counterexample): the claim says a member with
`compressed_size = 0` gets level range {0,1}.  The code returns early on
`compressed_size == 0`, leaving the zero-initialised fields untouched:
the resulting `estimated_level_max` is 0, not 1. -/
theorem c9_counterexample :
    (estimate_compression_level zeroMember).estimated_level_max ≠ 1 := by
  decide

/-- The level estimation as the amended claim states it: ratio and
threshold buckets for `compressed_size > 0`, and the untouched
zero-initialised triple `(0, 0, 0)` when `compressed_size = 0`. -/
def estimateSpecAmended (u c : Nat) : ℚ × Nat × Nat :=
  if c = 0 then (0, 0, 0)
  else
    let r : ℚ := (u : ℚ) / (c : ℚ)
    if r < 11 / 10 then (r, 0, 1)
    else if r < 3 / 2 then (r, 1, 3)
    else if r < 5 / 2 then (r, 4, 6)
    else (r, 7, 9)

/-- C9 (amended): on a zero-initialised member record,
`estimate_compression_level` computes exactly the ratio
`uncompressed_size / compressed_size` and the threshold buckets
ratio < 1.1 → {0,1}, < 1.5 → {1,3}, < 2.5 → {4,6}, else {7,9} —
except that `compressed_size = 0` leaves ratio 0 and level range
{0,0} (not {0,1}). -/
theorem c9_thresholds_amended (m : MemberInfo)
    (h1 : m.ratioVal = 0)
    (h2 : m.estimated_level_min = 0)
    (h3 : m.estimated_level_max = 0) :
    ((estimate_compression_level m).ratioVal,
     (estimate_compression_level m).estimated_level_min,
     (estimate_compression_level m).estimated_level_max) =
      estimateSpecAmended m.uncompressed_size m.compressed_size := by
  by_cases hc : m.compressed_size = 0
  · simp [estimate_compression_level, estimateSpecAmended, hc, h1, h2, h3]
  · have hcq : (0 : ℚ) < (m.compressed_size : ℚ) := by
      exact_mod_cast Nat.pos_of_ne_zero hc
    have e1 : ((m.uncompressed_size : ℚ) / (m.compressed_size : ℚ) < 11 / 10)
        ↔ (10 * m.uncompressed_size < 11 * m.compressed_size) := by
      rw [div_lt_div_iff₀ hcq (by norm_num : (0 : ℚ) < 10)]
      constructor
      · intro hlt
        have h10 : ((10 * m.uncompressed_size : ℕ) : ℚ)
            < ((11 * m.compressed_size : ℕ) : ℚ) := by
          push_cast
          linarith
        exact_mod_cast h10
      · intro hlt
        have h10 : ((10 * m.uncompressed_size : ℕ) : ℚ)
            < ((11 * m.compressed_size : ℕ) : ℚ) := by exact_mod_cast hlt
        push_cast at h10
        linarith
    have e2 : ((m.uncompressed_size : ℚ) / (m.compressed_size : ℚ) < 3 / 2)
        ↔ (2 * m.uncompressed_size < 3 * m.compressed_size) := by
      rw [div_lt_div_iff₀ hcq (by norm_num : (0 : ℚ) < 2)]
      constructor
      · intro hlt
        have h10 : ((2 * m.uncompressed_size : ℕ) : ℚ)
            < ((3 * m.compressed_size : ℕ) : ℚ) := by
          push_cast
          linarith
        exact_mod_cast h10
      · intro hlt
        have h10 : ((2 * m.uncompressed_size : ℕ) : ℚ)
            < ((3 * m.compressed_size : ℕ) : ℚ) := by exact_mod_cast hlt
        push_cast at h10
        linarith
    have e3 : ((m.uncompressed_size : ℚ) / (m.compressed_size : ℚ) < 5 / 2)
        ↔ (2 * m.uncompressed_size < 5 * m.compressed_size) := by
      rw [div_lt_div_iff₀ hcq (by norm_num : (0 : ℚ) < 2)]
      constructor
      · intro hlt
        have h10 : ((2 * m.uncompressed_size : ℕ) : ℚ)
            < ((5 * m.compressed_size : ℕ) : ℚ) := by
          push_cast
          linarith
        exact_mod_cast h10
      · intro hlt
        have h10 : ((2 * m.uncompressed_size : ℕ) : ℚ)
            < ((5 * m.compressed_size : ℕ) : ℚ) := by exact_mod_cast hlt
        push_cast at h10
        linarith
    simp only [estimate_compression_level, estimateSpecAmended, hc,
      if_false, e1, e2, e3]
    split_ifs <;> rfl

/-- C9 (witness): the amended theorem applied to a member with
uncompressed size 3 and compressed size 2 (ratio 1.5, bucket {4,6}). -/
theorem c9_witness :
    ((estimate_compression_level ratioMember).ratioVal,
     (estimate_compression_level ratioMember).estimated_level_min,
     (estimate_compression_level ratioMember).estimated_level_max) =
      estimateSpecAmended ratioMember.uncompressed_size
        ratioMember.compressed_size :=
  c9_thresholds_amended ratioMember rfl rfl rfl

/-- C10: `analyze_gzip` returns a nonzero result iff the file cannot be
opened; every successfully opened file yields return value 0, content
problems being expressed only through the report. -/
theorem c10_return_iff_unopenable (file : Option (List Nat)) :
    (analyze_gzip file).fst ≠ 0 ↔ file = none := by
  cases file <;> simp [analyze_gzip]
